import Mathlib

set_option maxHeartbeats 1000000

namespace PostgresMcp

/-- A SQL cell value as surfaced by the query executor's row dictionaries:
SQL NULL, an integer, a string, or a boolean. -/
inductive Value where
  | null : Value
  | int : Int → Value
  | str : String → Value
  | bool : Bool → Value
  deriving DecidableEq, Repr

/-- Python truthiness of a cell value (`if v:` / `v and w`): `None`, `0`, the
empty string and `False` are falsy; everything else is truthy. -/
def Value.truthy : Value → Bool
  | .null => false
  | .int n => n != 0
  | .str s => s != ""
  | .bool b => b

/-- Python `dict.get(key, default)` on a row's cell dictionary: the stored
value (possibly `Value.null`, representing SQL NULL) when the key is present,
otherwise the default.  Row dictionaries hold one entry per selected column,
including NULL-valued ones, per the query-executor contract (named-field
access by column label). -/
def pyGet (cells : List (String × Value)) (key : String) (dflt : Value) : Value :=
  match cells.find? (fun p => p.1 == key) with
  | some p => p.2
  | none => dflt

/-- Python `dict[key]` on a row's cell dictionary.  Every key indexed this way
in the source is a column selected by the corresponding query, so it is always
present and the `Value.null` fallback is unreachable. -/
def pyIdx (cells : List (String × Value)) (key : String) : Value :=
  pyGet cells key Value.null

/-- One row of the schema-enumeration query (columns `schema_name`,
`schema_owner`, `schema_type`). -/
structure SchemaRow where
  schema_name : Value
  schema_owner : Value
  schema_type : Value
  deriving DecidableEq, Repr

def SchemaRow.cells (r : SchemaRow) : List (String × Value) :=
  [("schema_name", r.schema_name), ("schema_owner", r.schema_owner),
   ("schema_type", r.schema_type)]

/-- One row of the table-listing query. -/
structure TableRow where
  table_schema : Value
  table_name : Value
  table_size : Value
  estimated_rows : Value
  table_comment : Value
  deriving DecidableEq, Repr

def TableRow.cells (r : TableRow) : List (String × Value) :=
  [("table_schema", r.table_schema), ("table_name", r.table_name),
   ("table_size", r.table_size), ("estimated_rows", r.estimated_rows),
   ("table_comment", r.table_comment)]

/-- One row of the view-listing query. -/
structure ViewRow where
  table_schema : Value
  table_name : Value
  view_definition : Value
  view_comment : Value
  deriving DecidableEq, Repr

def ViewRow.cells (r : ViewRow) : List (String × Value) :=
  [("table_schema", r.table_schema), ("table_name", r.table_name),
   ("view_definition", r.view_definition), ("view_comment", r.view_comment)]

/-- One row of the column-collector query. -/
structure ColRow where
  column_name : Value
  data_type : Value
  is_nullable : Value
  column_default : Value
  ordinal_position : Value
  character_maximum_length : Value
  numeric_precision : Value
  numeric_scale : Value
  column_comment : Value
  deriving DecidableEq, Repr

def ColRow.cells (r : ColRow) : List (String × Value) :=
  [("column_name", r.column_name), ("data_type", r.data_type),
   ("is_nullable", r.is_nullable), ("column_default", r.column_default),
   ("ordinal_position", r.ordinal_position),
   ("character_maximum_length", r.character_maximum_length),
   ("numeric_precision", r.numeric_precision),
   ("numeric_scale", r.numeric_scale),
   ("column_comment", r.column_comment)]

/-- One row of the constraint-collector query. -/
structure ConRow where
  constraint_name : Value
  constraint_type : Value
  column_name : Value
  foreign_table_schema : Value
  foreign_table_name : Value
  foreign_column_name : Value
  deriving DecidableEq, Repr

def ConRow.cells (r : ConRow) : List (String × Value) :=
  [("constraint_name", r.constraint_name), ("constraint_type", r.constraint_type),
   ("column_name", r.column_name), ("foreign_table_schema", r.foreign_table_schema),
   ("foreign_table_name", r.foreign_table_name),
   ("foreign_column_name", r.foreign_column_name)]

/-- One row of the index-collector query. -/
structure IdxRow where
  indexname : Value
  indexdef : Value
  index_size : Value
  is_unique : Value
  is_primary : Value
  deriving DecidableEq, Repr

def IdxRow.cells (r : IdxRow) : List (String × Value) :=
  [("indexname", r.indexname), ("indexdef", r.indexdef),
   ("index_size", r.index_size), ("is_unique", r.is_unique),
   ("is_primary", r.is_primary)]

/-- One row of the view-dependency query. -/
structure DepRow where
  source_schema : Value
  source_table : Value
  source_type : Value
  deriving DecidableEq, Repr

def DepRow.cells (r : DepRow) : List (String × Value) :=
  [("source_schema", r.source_schema), ("source_table", r.source_table),
   ("source_type", r.source_type)]

/-- The `col_info` dictionary built per column row: the first six keys are
always present; `max_length`, `precision` and `scale` are added only in the
truthiness-guarded branches, so they are optional. -/
structure ColInfo where
  name : Value
  data_type : Value
  is_nullable : Value
  default : Value
  position : Value
  comment : Value
  max_length : Option Value
  precision : Option Value
  scale : Option Value
  deriving DecidableEq, Repr

/-- Translation of the per-row `col_info` construction in `_get_tables_impl`
and `_get_views_impl` (the two code paths are textually identical). -/
def colInfoOfRow (r : ColRow) : ColInfo :=
  { name := pyIdx r.cells "column_name"
    data_type := pyIdx r.cells "data_type"
    is_nullable := pyIdx r.cells "is_nullable"
    default := pyIdx r.cells "column_default"
    position := pyIdx r.cells "ordinal_position"
    comment := pyGet r.cells "column_comment" (Value.str "")
    max_length :=
      if (pyGet r.cells "character_maximum_length" Value.null).truthy then
        some (pyIdx r.cells "character_maximum_length")
      else none
    precision :=
      if (pyGet r.cells "numeric_precision" Value.null).truthy then
        some (pyIdx r.cells "numeric_precision")
      else none
    scale :=
      if (pyGet r.cells "numeric_scale" Value.null).truthy then
        some (pyIdx r.cells "numeric_scale")
      else none }

/-- The `columns` list accumulated over the column rows (`if col_rows:` guards
a loop that does nothing on an empty list, so it is the plain map). -/
def columnsOf (rows : List ColRow) : List ColInfo :=
  rows.map colInfoOfRow

/-- The `references` sub-dictionary of a foreign-key constraint. -/
structure RefInfo where
  schema : Value
  table : Value
  column : Value
  deriving DecidableEq, Repr

/-- The value stored in the `constraints` dictionary for one constraint name:
`{"type": ..., "columns": [...]}` plus the optional `references` key. -/
structure ConEntry where
  type : Value
  columns : List Value
  references : Option RefInfo
  deriving DecidableEq, Repr

/-- One element of `constraints_list`: `{"name": name, **data}`. -/
structure ConDesc where
  name : Value
  type : Value
  columns : List Value
  references : Option RefInfo
  deriving DecidableEq, Repr

/-- Lookup in the insertion-ordered `constraints` dictionary, modelled as an
association list (Python dicts preserve insertion order; new keys are appended,
existing entries are updated in place). -/
def findEntry (acc : List (Value × ConEntry)) (k : Value) : Option ConEntry :=
  (acc.find? (fun p => p.1 == k)).map (fun p => p.2)

/-- In-place update of the entry stored under key `k`. -/
def updateEntry (acc : List (Value × ConEntry)) (k : Value) (f : ConEntry → ConEntry) :
    List (Value × ConEntry) :=
  acc.map (fun p => if p.1 == k then (p.1, f p.2) else p)

/-- One iteration of the constraint-accumulation loop: create the entry on a
first-seen name (attaching `references` if the row is a qualifying foreign-key
row), then append the row's column when it is truthy (`if col:`). -/
def conStep (acc : List (Value × ConEntry)) (r : ConRow) : List (Value × ConEntry) :=
  let cname := pyIdx r.cells "constraint_name"
  let ctype := pyIdx r.cells "constraint_type"
  let col := pyIdx r.cells "column_name"
  let acc1 :=
    if findEntry acc cname = none then
      acc ++ [(cname,
        { type := ctype
          columns := []
          references :=
            if (ctype == Value.str "FOREIGN KEY") &&
                (pyGet r.cells "foreign_table_name" Value.null).truthy then
              some { schema := pyIdx r.cells "foreign_table_schema"
                     table := pyIdx r.cells "foreign_table_name"
                     column := pyIdx r.cells "foreign_column_name" }
            else none })]
    else acc
  if col.truthy then
    updateEntry acc1 cname (fun e => { e with columns := e.columns ++ [col] })
  else acc1

/-- `constraints_list = [{"name": name, **data} for name, data in constraints.items()]`
after folding all constraint rows into the dictionary. -/
def constraintsOf (rows : List ConRow) : List ConDesc :=
  (rows.foldl conStep []).map
    (fun p => { name := p.1, type := p.2.type, columns := p.2.columns,
                references := p.2.references })

/-- One element of the `indexes` list. -/
structure IdxInfo where
  name : Value
  definition : Value
  size : Value
  is_unique : Value
  is_primary : Value
  deriving DecidableEq, Repr

def indexesOf (rows : List IdxRow) : List IdxInfo :=
  rows.map (fun r =>
    { name := pyIdx r.cells "indexname"
      definition := pyIdx r.cells "indexdef"
      size := pyIdx r.cells "index_size"
      is_unique := pyIdx r.cells "is_unique"
      is_primary := pyIdx r.cells "is_primary" })

/-- `dep_type_map.get(source_type, "unknown")` with
`dep_type_map = \x7b'r': 'table', 'v': 'view', 'm': 'materialized view'\x7d`. -/
def depTypeMapGet (v : Value) : String :=
  if v = Value.str "r" then "table"
  else if v = Value.str "v" then "view"
  else if v = Value.str "m" then "materialized view"
  else "unknown"

/-- One element of the `dependencies` list of a view record. -/
structure DepInfo where
  schema : Value
  name : Value
  type : String
  deriving DecidableEq, Repr

def dependenciesOf (rows : List DepRow) : List DepInfo :=
  rows.map (fun r =>
    { schema := pyIdx r.cells "source_schema"
      name := pyIdx r.cells "source_table"
      type := depTypeMapGet (pyIdx r.cells "source_type") })

/-- Outcome of one invocation: `format_text_response(result)` on success,
`format_error_response(str(e))` on an operation-level failure. -/
inductive Resp (α : Type) where
  | ok : α → Resp α
  | error : String → Resp α
  deriving DecidableEq, Repr

def Resp.isError {α : Type} : Resp α → Bool
  | .ok _ => false
  | .error _ => true

def exIsError {α : Type} : Except String α → Bool
  | .ok _ => false
  | .error _ => true

/-- The query-executor environment of one `_get_tables_impl` invocation: the
two top-level queries, and the three per-entity collector queries keyed by the
`(schema_name, table_name)` values bound into them.  A `.error` result models
a raised executor exception; `.ok` carries the returned rows (a `None` result
and an empty list behave identically at every use site, so both are `.ok []`). -/
structure TablesDb where
  schemaQ : Except String (List SchemaRow)
  tableQ : Except String (List TableRow)
  colQ : Value → Value → Except String (List ColRow)
  conQ : Value → Value → Except String (List ConRow)
  idxQ : Value → Value → Except String (List IdxRow)

/-- The dictionary assembled for one table (`table_info`). -/
structure TableInfo where
  schema : Value
  name : Value
  type : String
  comment : Value
  size : Value
  estimated_rows : Value
  columns : List ColInfo
  constraints : List ConDesc
  indexes : List IdxInfo
  deriving DecidableEq, Repr

/-- The body of the per-table `try` block: run the three collector queries and
build `table_info`; any raised executor error is caught (`except ... continue`)
and yields `none`, dropping the table. -/
def processTable (db : TablesDb) (row : TableRow) : Option TableInfo :=
  let schema_name := pyIdx row.cells "table_schema"
  let table_name := pyIdx row.cells "table_name"
  match db.colQ schema_name table_name with
  | .error _ => none
  | .ok col_rows =>
  match db.conQ schema_name table_name with
  | .error _ => none
  | .ok con_rows =>
  match db.idxQ schema_name table_name with
  | .error _ => none
  | .ok idx_rows =>
    some { schema := schema_name
           name := table_name
           type := "table"
           comment := pyGet row.cells "table_comment" (Value.str "")
           size := pyGet row.cells "table_size" (Value.str "")
           estimated_rows := pyGet row.cells "estimated_rows" (Value.int 0)
           columns := columnsOf col_rows
           constraints := constraintsOf con_rows
           indexes := indexesOf idx_rows }

/-- The `result` dictionary of `_get_tables_impl`.  `total_tables` is optional
because the early return taken when the table listing is empty builds a
dictionary without that key. -/
structure TablesReport where
  database : String
  schemas : List SchemaRow
  tables : List TableInfo
  total_tables : Option Nat
  deriving DecidableEq, Repr

/-- Translation of `_get_tables_impl`: enumerate schemas, list tables, return
early (without a total) when the listing is empty, otherwise assemble each
table with per-table failure isolation and attach `total_tables`.  A failure
of either top-level query is caught by the outer `try` and becomes an
operation-level error response. -/
def getTablesImpl (db : TablesDb) (database_name : String) : Resp TablesReport :=
  match db.schemaQ with
  | .error e => .error e
  | .ok schema_rows =>
  match db.tableQ with
  | .error e => .error e
  | .ok table_rows =>
    if table_rows.isEmpty then
      .ok { database := database_name, schemas := schema_rows, tables := [],
            total_tables := none }
    else
      let tables_info := table_rows.filterMap (processTable db)
      .ok { database := database_name, schemas := schema_rows,
            tables := tables_info, total_tables := some tables_info.length }

/-- The query-executor environment of one `_get_views_impl` invocation. -/
structure ViewsDb where
  schemaQ : Except String (List SchemaRow)
  viewQ : Except String (List ViewRow)
  colQ : Value → Value → Except String (List ColRow)
  depQ : Value → Value → Except String (List DepRow)

/-- The dictionary assembled for one view (`view_info`). -/
structure ViewInfo where
  schema : Value
  name : Value
  type : String
  comment : Value
  definition : Value
  columns : List ColInfo
  dependencies : List DepInfo
  deriving DecidableEq, Repr

/-- The body of the per-view `try` block. -/
def processView (db : ViewsDb) (row : ViewRow) : Option ViewInfo :=
  let schema_name := pyIdx row.cells "table_schema"
  let view_name := pyIdx row.cells "table_name"
  match db.colQ schema_name view_name with
  | .error _ => none
  | .ok col_rows =>
  match db.depQ schema_name view_name with
  | .error _ => none
  | .ok dep_rows =>
    some { schema := schema_name
           name := view_name
           type := "view"
           comment := pyGet row.cells "view_comment" (Value.str "")
           definition := pyGet row.cells "view_definition" (Value.str "")
           columns := columnsOf col_rows
           dependencies := dependenciesOf dep_rows }

/-- The `result` dictionary of `_get_views_impl`; as for tables, the
empty-listing early return carries no `total_views` key. -/
structure ViewsReport where
  database : String
  schemas : List SchemaRow
  views : List ViewInfo
  total_views : Option Nat
  deriving DecidableEq, Repr

/-- Translation of `_get_views_impl`. -/
def getViewsImpl (db : ViewsDb) (database_name : String) : Resp ViewsReport :=
  match db.schemaQ with
  | .error e => .error e
  | .ok schema_rows =>
  match db.viewQ with
  | .error e => .error e
  | .ok view_rows =>
    if view_rows.isEmpty then
      .ok { database := database_name, schemas := schema_rows, views := [],
            total_views := none }
    else
      let views_info := view_rows.filterMap (processView db)
      .ok { database := database_name, schemas := schema_rows,
            views := views_info, total_views := some views_info.length }

/-- One row of `information_schema.schemata`, the input of the
schema-enumeration query. -/
structure CatalogSchema where
  name : String
  owner : String
  deriving DecidableEq, Repr

/-- SQL `LIKE` against the pattern `pg_%`: in `LIKE`, `_` matches exactly one
character and `%` matches any (possibly empty) tail, so the pattern matches
any name of length at least 3 whose first two characters are `pg`. -/
def likePgPattern (s : String) : Bool :=
  (['p', 'g'].isPrefixOf s.data) && 3 ≤ s.data.length

/-- The literal-prefix reading used by the specification: the name begins with
the three characters `pg_` (no wildcard).  Stated over the character list so
that concrete instances evaluate. -/
def beginsWithPgUnderscore (s : String) : Bool :=
  ['p', 'g', '_'].isPrefixOf s.data

/-- The `CASE` expression computing `schema_type`. -/
def schemaTypeCase (name : String) : String :=
  if likePgPattern name then "system"
  else if name = "information_schema" then "system"
  else "user"

/-- The row the schema-enumeration query produces for one catalog schema. -/
def schemaRowOf (c : CatalogSchema) : SchemaRow :=
  { schema_name := Value.str c.name
    schema_owner := Value.str c.owner
    schema_type := Value.str (schemaTypeCase c.name) }

/-- Lexicographic comparison of character lists, the order `ORDER BY` uses on
names (by code point; a prefix sorts before its extensions). -/
def charListLe : List Char → List Char → Bool
  | [], _ => true
  | _ :: _, [] => false
  | a :: as, b :: bs =>
    if a < b then true
    else if b < a then false
    else charListLe as bs

/-- `ORDER BY schema_name` comparison between two catalog rows. -/
def schemaNameLe (a b : CatalogSchema) : Prop :=
  charListLe a.name.data b.name.data = true

instance : DecidableRel schemaNameLe :=
  fun a b => inferInstanceAs (Decidable (charListLe a.name.data b.name.data = true))

/-- Semantics of the schema-enumeration SQL over a catalog state: keep the
rows passing `schema_name NOT LIKE 'pg_%' AND schema_name != 'information_schema'`,
order them by `schema_name`, and project the three selected columns. -/
def schemaQuerySem (catalog : List CatalogSchema) : List SchemaRow :=
  (List.insertionSort schemaNameLe
    (catalog.filter
      (fun c => !(likePgPattern c.name) && c.name != "information_schema"))).map
    schemaRowOf

/-- String payload of a `Value`, empty for non-strings; used to state ordering
of schema rows (whose names are always string values). -/
def Value.strOrEmpty : Value → String
  | .str s => s
  | _ => ""

/-- The columns contributed to the descriptor named `k`: each row for that
name whose `column_name` cell is truthy contributes that cell, in row order. -/
def colsFor (k : Value) (rows : List ConRow) : List Value :=
  (rows.filter (fun r => r.constraint_name == k)).filterMap
    (fun r => if r.column_name.truthy then some r.column_name else none)

/-- The `references` value derived from one constraint row at entry-creation
time (first sight of the constraint name). -/
def refOfFirst (r : ConRow) : Option RefInfo :=
  if (r.constraint_type == Value.str "FOREIGN KEY") && r.foreign_table_name.truthy then
    some { schema := r.foreign_table_schema, table := r.foreign_table_name,
           column := r.foreign_column_name }
  else none

/-- The descriptor emitted under constraint name `k`, if any. -/
def findDesc (l : List ConDesc) (k : Value) : Option ConDesc :=
  l.find? (fun d => d.name == k)

/-- Fixture for C1: both top-level queries succeed and the table listing is
empty. -/
def c1db : TablesDb :=
  { schemaQ := .ok [], tableQ := .ok []
    colQ := fun _ _ => .ok [], conQ := fun _ _ => .ok [], idxQ := fun _ _ => .ok [] }

def c2rowA : TableRow :=
  { table_schema := Value.str "s", table_name := Value.str "a"
    table_size := Value.str "8 kB", estimated_rows := Value.int 0
    table_comment := Value.null }

def c2rowB : TableRow :=
  { table_schema := Value.str "s", table_name := Value.str "b"
    table_size := Value.str "8 kB", estimated_rows := Value.int 0
    table_comment := Value.null }

/-- Fixture for C2 (tables): the column collector fails for table `s.a` only. -/
def c2db : TablesDb :=
  { schemaQ := .ok [], tableQ := .ok [c2rowA, c2rowB]
    colQ := fun _ t => if t = Value.str "a" then .error "boom" else .ok []
    conQ := fun _ _ => .ok [], idxQ := fun _ _ => .ok [] }

def c2vrowA : ViewRow :=
  { table_schema := Value.str "s", table_name := Value.str "va"
    view_definition := Value.str "SELECT 1", view_comment := Value.null }

def c2vrowB : ViewRow :=
  { table_schema := Value.str "s", table_name := Value.str "vb"
    view_definition := Value.str "SELECT 2", view_comment := Value.null }

/-- Fixture for C2 (views): the dependency query fails for view `s.va` only. -/
def c2vdb : ViewsDb :=
  { schemaQ := .ok [], viewQ := .ok [c2vrowA, c2vrowB]
    colQ := fun _ _ => .ok []
    depQ := fun _ t => if t = Value.str "va" then .error "dep boom" else .ok [] }

def c4row1 : ConRow :=
  { constraint_name := Value.str "fk", constraint_type := Value.str "FOREIGN KEY"
    column_name := Value.str "a", foreign_table_schema := Value.str "s2"
    foreign_table_name := Value.str "t2", foreign_column_name := Value.str "x" }

def c4row2 : ConRow :=
  { constraint_name := Value.str "fk", constraint_type := Value.str "FOREIGN KEY"
    column_name := Value.str "b", foreign_table_schema := Value.str "s3"
    foreign_table_name := Value.str "t3", foreign_column_name := Value.str "y" }

/-- Fixture for C5: a CHECK-constraint row; the key-column join produced no
column, so `column_name` is NULL. -/
def c5row : ConRow :=
  { constraint_name := Value.str "chk", constraint_type := Value.str "CHECK"
    column_name := Value.null, foreign_table_schema := Value.null
    foreign_table_name := Value.null, foreign_column_name := Value.null }

/-- Fixture for C6: a `numeric(10,0)` column; the catalog reports the non-null
scale `0`. -/
def c6row : ColRow :=
  { column_name := Value.str "amount", data_type := Value.str "numeric"
    is_nullable := Value.str "NO", column_default := Value.null
    ordinal_position := Value.int 1, character_maximum_length := Value.null
    numeric_precision := Value.int 10, numeric_scale := Value.int 0
    column_comment := Value.null }

/-- Fixture for C7: a column with no description recorded in the catalog, so
the selected `column_comment` cell is NULL. -/
def c7row : ColRow :=
  { column_name := Value.str "id", data_type := Value.str "integer"
    is_nullable := Value.str "NO", column_default := Value.null
    ordinal_position := Value.int 1, character_maximum_length := Value.null
    numeric_precision := Value.int 32, numeric_scale := Value.int 0
    column_comment := Value.null }

/-- Fixture for C8's counterexample: a catalog holding one schema named `pgx`,
which does not begin with the literal prefix `pg_` but matches `LIKE 'pg_%'`. -/
def c8db : TablesDb :=
  { schemaQ := .ok (schemaQuerySem [{ name := "pgx", owner := "o" }])
    tableQ := .ok []
    colQ := fun _ _ => .ok [], conQ := fun _ _ => .ok [], idxQ := fun _ _ => .ok [] }

def c8wcat : List CatalogSchema :=
  [{ name := "b", owner := "o" }, { name := "pg_toast", owner := "po" },
   { name := "a", owner := "p" }]

/-- Fixture for C8's witness: an out-of-order catalog with one system schema. -/
def c8wdb : TablesDb :=
  { schemaQ := .ok (schemaQuerySem c8wcat), tableQ := .ok []
    colQ := fun _ _ => .ok [], conQ := fun _ _ => .ok [], idxQ := fun _ _ => .ok [] }

def c9row : TableRow :=
  { table_schema := Value.str "s", table_name := Value.str "t"
    table_size := Value.str "0 bytes", estimated_rows := Value.int 0
    table_comment := Value.null }

/-- Fixture for C9: every collector succeeds and returns zero rows. -/
def c9db : TablesDb :=
  { schemaQ := .ok [], tableQ := .ok [c9row]
    colQ := fun _ _ => .ok [], conQ := fun _ _ => .ok [], idxQ := fun _ _ => .ok [] }

def c10vrow : ViewRow :=
  { table_schema := Value.str "s", table_name := Value.str "v1"
    view_definition := Value.str "SELECT 1", view_comment := Value.null }

def c10depRow : DepRow :=
  { source_schema := Value.str "s2", source_table := Value.str "t2"
    source_type := Value.str "r" }

/-- Fixture for C10: one view whose dependency rows all satisfy the
`relkind IN ('r', 'v', 'm')` filter of the dependency query. -/
def c10db : ViewsDb :=
  { schemaQ := .ok [], viewQ := .ok [c10vrow]
    colQ := fun _ _ => .ok []
    depQ := fun _ _ => .ok [c10depRow] }

def c10dep : DepInfo :=
  { schema := Value.str "s2", name := Value.str "t2"
    type := depTypeMapGet (Value.str "r") }

def c10view : ViewInfo :=
  { schema := Value.str "s", name := Value.str "v1", type := "view"
    comment := Value.null, definition := Value.str "SELECT 1"
    columns := [], dependencies := [c10dep] }

def c10rep : ViewsReport :=
  { database := "d", schemas := [], views := [c10view], total_views := some 1 }

@[simp] theorem pyIdx_eq (cells : List (String × Value)) (key : String) :
    pyIdx cells key = pyGet cells key Value.null := rfl

@[simp] theorem pyGet_tableRow_schema (r : TableRow) (d : Value) :
    pyGet r.cells "table_schema" d = r.table_schema := rfl

@[simp] theorem pyGet_tableRow_name (r : TableRow) (d : Value) :
    pyGet r.cells "table_name" d = r.table_name := rfl

@[simp] theorem pyGet_tableRow_size (r : TableRow) (d : Value) :
    pyGet r.cells "table_size" d = r.table_size := rfl

@[simp] theorem pyGet_tableRow_estimated (r : TableRow) (d : Value) :
    pyGet r.cells "estimated_rows" d = r.estimated_rows := rfl

@[simp] theorem pyGet_tableRow_comment (r : TableRow) (d : Value) :
    pyGet r.cells "table_comment" d = r.table_comment := rfl

@[simp] theorem pyGet_viewRow_schema (r : ViewRow) (d : Value) :
    pyGet r.cells "table_schema" d = r.table_schema := rfl

@[simp] theorem pyGet_viewRow_name (r : ViewRow) (d : Value) :
    pyGet r.cells "table_name" d = r.table_name := rfl

@[simp] theorem pyGet_viewRow_definition (r : ViewRow) (d : Value) :
    pyGet r.cells "view_definition" d = r.view_definition := rfl

@[simp] theorem pyGet_viewRow_comment (r : ViewRow) (d : Value) :
    pyGet r.cells "view_comment" d = r.view_comment := rfl

@[simp] theorem pyGet_colRow_name (r : ColRow) (d : Value) :
    pyGet r.cells "column_name" d = r.column_name := rfl

@[simp] theorem pyGet_colRow_data_type (r : ColRow) (d : Value) :
    pyGet r.cells "data_type" d = r.data_type := rfl

@[simp] theorem pyGet_colRow_nullable (r : ColRow) (d : Value) :
    pyGet r.cells "is_nullable" d = r.is_nullable := rfl

@[simp] theorem pyGet_colRow_default (r : ColRow) (d : Value) :
    pyGet r.cells "column_default" d = r.column_default := rfl

@[simp] theorem pyGet_colRow_position (r : ColRow) (d : Value) :
    pyGet r.cells "ordinal_position" d = r.ordinal_position := rfl

@[simp] theorem pyGet_colRow_max_length (r : ColRow) (d : Value) :
    pyGet r.cells "character_maximum_length" d = r.character_maximum_length := rfl

@[simp] theorem pyGet_colRow_precision (r : ColRow) (d : Value) :
    pyGet r.cells "numeric_precision" d = r.numeric_precision := rfl

@[simp] theorem pyGet_colRow_scale (r : ColRow) (d : Value) :
    pyGet r.cells "numeric_scale" d = r.numeric_scale := rfl

@[simp] theorem pyGet_colRow_comment (r : ColRow) (d : Value) :
    pyGet r.cells "column_comment" d = r.column_comment := rfl

@[simp] theorem pyGet_conRow_cname (r : ConRow) (d : Value) :
    pyGet r.cells "constraint_name" d = r.constraint_name := rfl

@[simp] theorem pyGet_conRow_ctype (r : ConRow) (d : Value) :
    pyGet r.cells "constraint_type" d = r.constraint_type := rfl

@[simp] theorem pyGet_conRow_col (r : ConRow) (d : Value) :
    pyGet r.cells "column_name" d = r.column_name := rfl

@[simp] theorem pyGet_conRow_fschema (r : ConRow) (d : Value) :
    pyGet r.cells "foreign_table_schema" d = r.foreign_table_schema := rfl

@[simp] theorem pyGet_conRow_fname (r : ConRow) (d : Value) :
    pyGet r.cells "foreign_table_name" d = r.foreign_table_name := rfl

@[simp] theorem pyGet_conRow_fcol (r : ConRow) (d : Value) :
    pyGet r.cells "foreign_column_name" d = r.foreign_column_name := rfl

/-- Shape of `getTablesImpl` when both top-level queries succeed and the
table listing is nonempty. -/
theorem getTablesImpl_ok_nonempty (db : TablesDb) (n : String) (ss : List SchemaRow)
    (rows : List TableRow) (h1 : db.schemaQ = .ok ss) (h2 : db.tableQ = .ok rows)
    (h3 : rows ≠ []) :
    getTablesImpl db n =
      .ok { database := n, schemas := ss
            tables := rows.filterMap (processTable db)
            total_tables := some (rows.filterMap (processTable db)).length } := by
  unfold getTablesImpl
  rw [h1, h2]
  cases rows with
  | nil => exact absurd rfl h3
  | cons a l => simp

/-- Shape of `getTablesImpl` on an empty table listing: early return with no
`total_tables` key. -/
theorem getTablesImpl_ok_empty (db : TablesDb) (n : String) (ss : List SchemaRow)
    (h1 : db.schemaQ = .ok ss) (h2 : db.tableQ = .ok []) :
    getTablesImpl db n =
      .ok { database := n, schemas := ss, tables := []
            total_tables := none } := by
  unfold getTablesImpl
  rw [h1, h2]
  simp

/-- Shape of `getViewsImpl` when both top-level queries succeed and the view
listing is nonempty. -/
theorem getViewsImpl_ok_nonempty (db : ViewsDb) (n : String) (ss : List SchemaRow)
    (rows : List ViewRow) (h1 : db.schemaQ = .ok ss) (h2 : db.viewQ = .ok rows)
    (h3 : rows ≠ []) :
    getViewsImpl db n =
      .ok { database := n, schemas := ss
            views := rows.filterMap (processView db)
            total_views := some (rows.filterMap (processView db)).length } := by
  unfold getViewsImpl
  rw [h1, h2]
  cases rows with
  | nil => exact absurd rfl h3
  | cons a l => simp

/-- Shape of `getViewsImpl` on an empty view listing. -/
theorem getViewsImpl_ok_empty (db : ViewsDb) (n : String) (ss : List SchemaRow)
    (h1 : db.schemaQ = .ok ss) (h2 : db.viewQ = .ok []) :
    getViewsImpl db n =
      .ok { database := n, schemas := ss, views := []
            total_views := none } := by
  unfold getViewsImpl
  rw [h1, h2]
  simp

/-- A table is assembled exactly when its three collector queries succeed. -/
theorem processTable_some (db : TablesDb) (row : TableRow)
    (cr : List ColRow) (kr : List ConRow) (ir : List IdxRow)
    (hc : db.colQ row.table_schema row.table_name = .ok cr)
    (hk : db.conQ row.table_schema row.table_name = .ok kr)
    (hi : db.idxQ row.table_schema row.table_name = .ok ir) :
    processTable db row = some
      { schema := row.table_schema, name := row.table_name, type := "table"
        comment := row.table_comment, size := row.table_size
        estimated_rows := row.estimated_rows
        columns := columnsOf cr, constraints := constraintsOf kr
        indexes := indexesOf ir } := by
  unfold processTable
  simp only [pyIdx_eq, pyGet_tableRow_schema, pyGet_tableRow_name]
  rw [hc, hk, hi]
  simp

/-- Any collector failure drops the table. -/
theorem processTable_none (db : TablesDb) (row : TableRow)
    (h : (exIsError (db.colQ row.table_schema row.table_name) ||
          exIsError (db.conQ row.table_schema row.table_name) ||
          exIsError (db.idxQ row.table_schema row.table_name)) = true) :
    processTable db row = none := by
  unfold processTable
  simp only [pyIdx_eq, pyGet_tableRow_schema, pyGet_tableRow_name]
  cases hc : db.colQ row.table_schema row.table_name with
  | error e => rfl
  | ok cr =>
    cases hk : db.conQ row.table_schema row.table_name with
    | error e => rfl
    | ok kr =>
      cases hi : db.idxQ row.table_schema row.table_name with
      | error e => rfl
      | ok ir => rw [hc, hk, hi] at h; simp [exIsError] at h

/-- A view is assembled exactly when its two collector queries succeed. -/
theorem processView_some (db : ViewsDb) (row : ViewRow)
    (cr : List ColRow) (dr : List DepRow)
    (hc : db.colQ row.table_schema row.table_name = .ok cr)
    (hd : db.depQ row.table_schema row.table_name = .ok dr) :
    processView db row = some
      { schema := row.table_schema, name := row.table_name, type := "view"
        comment := row.view_comment, definition := row.view_definition
        columns := columnsOf cr, dependencies := dependenciesOf dr } := by
  unfold processView
  simp only [pyIdx_eq, pyGet_viewRow_schema, pyGet_viewRow_name]
  rw [hc, hd]
  simp

/-- Any collector failure drops the view. -/
theorem processView_none (db : ViewsDb) (row : ViewRow)
    (h : (exIsError (db.colQ row.table_schema row.table_name) ||
          exIsError (db.depQ row.table_schema row.table_name)) = true) :
    processView db row = none := by
  unfold processView
  simp only [pyIdx_eq, pyGet_viewRow_schema, pyGet_viewRow_name]
  cases hc : db.colQ row.table_schema row.table_name with
  | error e => rfl
  | ok cr =>
    cases hd : db.depQ row.table_schema row.table_name with
    | error e => rfl
    | ok dr => rw [hc, hd] at h; simp [exIsError] at h

/-- A schema-enumeration failure is rethrown by the outer handler as an
operation-level error. -/
theorem getTablesImpl_schema_error (db : TablesDb) (n : String) (e : String)
    (h : db.schemaQ = .error e) : getTablesImpl db n = .error e := by
  unfold getTablesImpl
  rw [h]

/-- A table-listing failure is rethrown as an operation-level error. -/
theorem getTablesImpl_table_error (db : TablesDb) (n : String) (ss : List SchemaRow)
    (e : String) (h1 : db.schemaQ = .ok ss) (h2 : db.tableQ = .error e) :
    getTablesImpl db n = .error e := by
  unfold getTablesImpl
  rw [h1, h2]

theorem getViewsImpl_schema_error (db : ViewsDb) (n : String) (e : String)
    (h : db.schemaQ = .error e) : getViewsImpl db n = .error e := by
  unfold getViewsImpl
  rw [h]

theorem getViewsImpl_view_error (db : ViewsDb) (n : String) (ss : List SchemaRow)
    (e : String) (h1 : db.schemaQ = .ok ss) (h2 : db.viewQ = .error e) :
    getViewsImpl db n = .error e := by
  unfold getViewsImpl
  rw [h1, h2]

/-- Claim C1 counterexample: with both top-level queries succeeding and an
empty table listing, the operation succeeds with an empty entity list but the
report carries no total field at all, so the total is not `0` and does not
equal the entity-list length as the claim requires. -/
theorem c1_counterexample :
    ∃ rep, getTablesImpl c1db "d" = Resp.ok rep ∧ rep.tables = [] ∧
      rep.total_tables ≠ some rep.tables.length := by
  refine ⟨{ database := "d", schemas := [], tables := [], total_tables := none },
    rfl, rfl, by simp⟩

/-- Claim C1 (amended): whenever `describe_tables` / `describe_views` succeeds,
either the report carries a total equal to the length of the entity list
actually produced, or the entity listing was empty, in which case the report
has an empty entity list and omits the total field entirely (rather than
reporting `total = 0`). -/
theorem c1_amended_total_matches :
    (∀ (db : TablesDb) (n : String) (rep : TablesReport),
      getTablesImpl db n = Resp.ok rep →
      rep.total_tables = some rep.tables.length ∨
        (rep.total_tables = none ∧ rep.tables = [])) ∧
    (∀ (db : TablesDb) (n : String) (ss : List SchemaRow),
      db.schemaQ = .ok ss → db.tableQ = .ok [] →
      getTablesImpl db n =
        Resp.ok { database := n, schemas := ss, tables := [], total_tables := none }) ∧
    (∀ (db : ViewsDb) (n : String) (rep : ViewsReport),
      getViewsImpl db n = Resp.ok rep →
      rep.total_views = some rep.views.length ∨
        (rep.total_views = none ∧ rep.views = [])) ∧
    (∀ (db : ViewsDb) (n : String) (ss : List SchemaRow),
      db.schemaQ = .ok ss → db.viewQ = .ok [] →
      getViewsImpl db n =
        Resp.ok { database := n, schemas := ss, views := [], total_views := none }) := by
  refine ⟨?_, ?_, ?_, ?_⟩
  · intro db n rep h
    cases hs : db.schemaQ with
    | error e => rw [getTablesImpl_schema_error db n e hs] at h; exact absurd h (by simp)
    | ok ss =>
      cases ht : db.tableQ with
      | error e =>
        rw [getTablesImpl_table_error db n ss e hs ht] at h
        exact absurd h (by simp)
      | ok rows =>
        cases rows with
        | nil =>
          rw [getTablesImpl_ok_empty db n ss hs ht] at h
          simp only [Resp.ok.injEq] at h
          subst h
          right; exact ⟨rfl, rfl⟩
        | cons a l =>
          rw [getTablesImpl_ok_nonempty db n ss (a :: l) hs ht (by simp)] at h
          simp only [Resp.ok.injEq] at h
          subst h
          left; rfl
  · intro db n ss h1 h2
    exact getTablesImpl_ok_empty db n ss h1 h2
  · intro db n rep h
    cases hs : db.schemaQ with
    | error e => rw [getViewsImpl_schema_error db n e hs] at h; exact absurd h (by simp)
    | ok ss =>
      cases ht : db.viewQ with
      | error e =>
        rw [getViewsImpl_view_error db n ss e hs ht] at h
        exact absurd h (by simp)
      | ok rows =>
        cases rows with
        | nil =>
          rw [getViewsImpl_ok_empty db n ss hs ht] at h
          simp only [Resp.ok.injEq] at h
          subst h
          right; exact ⟨rfl, rfl⟩
        | cons a l =>
          rw [getViewsImpl_ok_nonempty db n ss (a :: l) hs ht (by simp)] at h
          simp only [Resp.ok.injEq] at h
          subst h
          left; rfl
  · intro db n ss h1 h2
    exact getViewsImpl_ok_empty db n ss h1 h2

/-- Claim C1 witness: the amended statement applied to the concrete
empty-listing database. -/
theorem c1_witness :
    getTablesImpl c1db "d" =
      Resp.ok { database := "d", schemas := [], tables := [], total_tables := none } :=
  c1_amended_total_matches.2.1 c1db "d" [] rfl rfl

/-- Claim C2: if any collector query for a listed entity fails, that entity is
dropped entirely (no record, partial or otherwise), the report's entity list
is exactly the per-row assemblies of the other rows, the total counts only
those, and the operation still succeeds. -/
theorem c2_collector_failure_isolation :
    (∀ (db : TablesDb) (n : String) (ss : List SchemaRow) (rows : List TableRow)
      (row : TableRow),
      db.schemaQ = .ok ss → db.tableQ = .ok rows → row ∈ rows →
      (exIsError (db.colQ row.table_schema row.table_name) ||
       exIsError (db.conQ row.table_schema row.table_name) ||
       exIsError (db.idxQ row.table_schema row.table_name)) = true →
      processTable db row = none ∧
      ∃ rep, getTablesImpl db n = Resp.ok rep ∧
        rep.tables = rows.filterMap (processTable db) ∧
        rep.total_tables = some rep.tables.length) ∧
    (∀ (db : ViewsDb) (n : String) (ss : List SchemaRow) (rows : List ViewRow)
      (row : ViewRow),
      db.schemaQ = .ok ss → db.viewQ = .ok rows → row ∈ rows →
      (exIsError (db.colQ row.table_schema row.table_name) ||
       exIsError (db.depQ row.table_schema row.table_name)) = true →
      processView db row = none ∧
      ∃ rep, getViewsImpl db n = Resp.ok rep ∧
        rep.views = rows.filterMap (processView db) ∧
        rep.total_views = some rep.views.length) := by
  constructor
  · intro db n ss rows row h1 h2 h3 h4
    refine ⟨processTable_none db row h4, ?_⟩
    rw [getTablesImpl_ok_nonempty db n ss rows h1 h2 (List.ne_nil_of_mem h3)]
    exact ⟨_, rfl, rfl, rfl⟩
  · intro db n ss rows row h1 h2 h3 h4
    refine ⟨processView_none db row h4, ?_⟩
    rw [getViewsImpl_ok_nonempty db n ss rows h1 h2 (List.ne_nil_of_mem h3)]
    exact ⟨_, rfl, rfl, rfl⟩

/-- Claim C2 witness: a two-table database whose column collector fails for
`s.a` only, and a two-view database whose dependency query fails for `s.va`
only. -/
theorem c2_witness :
    (processTable c2db c2rowA = none ∧
     ∃ rep, getTablesImpl c2db "d" = Resp.ok rep ∧
       rep.tables = [c2rowA, c2rowB].filterMap (processTable c2db) ∧
       rep.total_tables = some rep.tables.length) ∧
    (processView c2vdb c2vrowA = none ∧
     ∃ rep, getViewsImpl c2vdb "d" = Resp.ok rep ∧
       rep.views = [c2vrowA, c2vrowB].filterMap (processView c2vdb) ∧
       rep.total_views = some rep.views.length) :=
  ⟨c2_collector_failure_isolation.1 c2db "d" [] [c2rowA, c2rowB] c2rowA rfl rfl
      (by decide) (by decide),
   c2_collector_failure_isolation.2 c2vdb "d" [] [c2vrowA, c2vrowB] c2vrowA rfl rfl
      (by decide) (by decide)⟩

/-- Claim C3: the operation returns an operation-level error exactly when the
schema enumeration or the entity listing fails; per-entity collector failures
never surface as an operation failure. -/
theorem c3_top_level_failure_aborts :
    ∀ (db : TablesDb) (db2 : ViewsDb) (n : String),
      (getTablesImpl db n).isError = (exIsError db.schemaQ || exIsError db.tableQ) ∧
      (getViewsImpl db2 n).isError = (exIsError db2.schemaQ || exIsError db2.viewQ) := by
  intro db db2 n
  constructor
  · unfold getTablesImpl
    cases db.schemaQ with
    | error e => rfl
    | ok ss =>
      cases db.tableQ with
      | error e => rfl
      | ok rows =>
        simp only [exIsError, Bool.or_false]
        split <;> rfl
  · unfold getViewsImpl
    cases db2.schemaQ with
    | error e => rfl
    | ok ss =>
      cases db2.viewQ with
      | error e => rfl
      | ok rows =>
        simp only [exIsError, Bool.or_false]
        split <;> rfl

/-- Claim C9: an entity whose collector queries all succeed is kept in the
report even when some of them return zero rows; empty collector results
become the corresponding empty lists in the record. -/
theorem c9_empty_collector_results_kept :
    (∀ (db : TablesDb) (n : String) (ss : List SchemaRow) (rows : List TableRow)
      (row : TableRow) (cr : List ColRow) (kr : List ConRow) (ir : List IdxRow),
      db.schemaQ = .ok ss → db.tableQ = .ok rows → row ∈ rows →
      db.colQ row.table_schema row.table_name = .ok cr →
      db.conQ row.table_schema row.table_name = .ok kr →
      db.idxQ row.table_schema row.table_name = .ok ir →
      ∃ info rep, processTable db row = some info ∧
        getTablesImpl db n = Resp.ok rep ∧ info ∈ rep.tables ∧
        info.columns = columnsOf cr ∧ info.constraints = constraintsOf kr ∧
        info.indexes = indexesOf ir ∧
        columnsOf [] = [] ∧ constraintsOf [] = [] ∧ indexesOf [] = []) ∧
    (∀ (db : ViewsDb) (n : String) (ss : List SchemaRow) (rows : List ViewRow)
      (row : ViewRow) (cr : List ColRow) (dr : List DepRow),
      db.schemaQ = .ok ss → db.viewQ = .ok rows → row ∈ rows →
      db.colQ row.table_schema row.table_name = .ok cr →
      db.depQ row.table_schema row.table_name = .ok dr →
      ∃ info rep, processView db row = some info ∧
        getViewsImpl db n = Resp.ok rep ∧ info ∈ rep.views ∧
        info.columns = columnsOf cr ∧ info.dependencies = dependenciesOf dr ∧
        columnsOf [] = [] ∧ dependenciesOf [] = []) := by
  constructor
  · intro db n ss rows row cr kr ir h1 h2 h3 hc hk hi
    have hsome := processTable_some db row cr kr ir hc hk hi
    refine ⟨_, _, hsome,
      getTablesImpl_ok_nonempty db n ss rows h1 h2 (List.ne_nil_of_mem h3),
      List.mem_filterMap.2 ⟨row, h3, hsome⟩, rfl, rfl, rfl, rfl, rfl, rfl⟩
  · intro db n ss rows row cr dr h1 h2 h3 hc hd
    have hsome := processView_some db row cr dr hc hd
    refine ⟨_, _, hsome,
      getViewsImpl_ok_nonempty db n ss rows h1 h2 (List.ne_nil_of_mem h3),
      List.mem_filterMap.2 ⟨row, h3, hsome⟩, rfl, rfl, rfl, rfl⟩

/-- Claim C9 witness: one table whose three collectors all succeed with zero
rows; its record is present with empty columns, constraints and indexes. -/
theorem c9_witness :
    ∃ info rep, processTable c9db c9row = some info ∧
      getTablesImpl c9db "d" = Resp.ok rep ∧ info ∈ rep.tables ∧
      info.columns = columnsOf [] ∧ info.constraints = constraintsOf [] ∧
      info.indexes = indexesOf [] ∧
      columnsOf [] = [] ∧ constraintsOf [] = [] ∧ indexesOf [] = [] :=
  c9_empty_collector_results_kept.1 c9db "d" [] [c9row] c9row [] [] [] rfl rfl
    (by decide) rfl rfl rfl

theorem findEntry_nil (k : Value) : findEntry [] k = none := rfl

/-- Updating key `k` rewrites the entry found under `k` and nothing else. -/
theorem findEntry_updateEntry_self (acc : List (Value × ConEntry)) (k : Value)
    (f : ConEntry → ConEntry) :
    findEntry (updateEntry acc k f) k = (findEntry acc k).map f := by
  induction acc with
  | nil => rfl
  | cons p acc ih =>
    by_cases hp : p.1 = k
    · simp [findEntry, updateEntry, hp]
    · simp only [findEntry, updateEntry, List.map_cons] at ih ⊢
      rw [if_neg (by simp [beq_iff_eq, hp])]
      rw [List.find?_cons_of_neg _ (by simp [beq_iff_eq, hp]),
        List.find?_cons_of_neg _ (by simp [beq_iff_eq, hp])]
      exact ih

/-- Updating key `k` leaves lookups of other keys unchanged. -/
theorem findEntry_updateEntry_ne (acc : List (Value × ConEntry)) (k k2 : Value)
    (f : ConEntry → ConEntry) (h : k2 ≠ k) :
    findEntry (updateEntry acc k f) k2 = findEntry acc k2 := by
  induction acc with
  | nil => rfl
  | cons p acc ih =>
    by_cases hp : p.1 = k
    · simp only [findEntry, updateEntry, List.map_cons] at ih ⊢
      rw [if_pos (by simp [beq_iff_eq, hp])]
      rw [List.find?_cons_of_neg _ (by simp [beq_iff_eq, hp]; exact fun he => h he.symm),
        List.find?_cons_of_neg _ (by simp [beq_iff_eq, hp]; exact fun he => h he.symm)]
      exact ih
    · by_cases hp2 : p.1 = k2
      · simp only [findEntry, updateEntry, List.map_cons]
        rw [if_neg (by simp [beq_iff_eq, hp])]
        rw [List.find?_cons_of_pos _ (by simp [beq_iff_eq, hp2]),
          List.find?_cons_of_pos _ (by simp [beq_iff_eq, hp2])]
      · simp only [findEntry, updateEntry, List.map_cons] at ih ⊢
        rw [if_neg (by simp [beq_iff_eq, hp])]
        rw [List.find?_cons_of_neg _ (by simp [beq_iff_eq, hp2]),
          List.find?_cons_of_neg _ (by simp [beq_iff_eq, hp2])]
        exact ih

/-- Appending a new pair keyed `k` when `k` is absent makes it the lookup
result for `k`. -/
theorem findEntry_append_right (acc : List (Value × ConEntry)) (k : Value) (e : ConEntry)
    (h : findEntry acc k = none) :
    findEntry (acc ++ [(k, e)]) k = some e := by
  have hf : acc.find? (fun p => p.1 == k) = none := by
    cases hq : acc.find? (fun p => p.1 == k) with
    | none => rfl
    | some p => rw [findEntry, hq] at h; simp at h
  simp [findEntry, List.find?_append, hf]

/-- Appending a pair keyed `k` leaves lookups of other keys unchanged. -/
theorem findEntry_append_ne (acc : List (Value × ConEntry)) (k k2 : Value) (e : ConEntry)
    (h : k ≠ k2) :
    findEntry (acc ++ [(k, e)]) k2 = findEntry acc k2 := by
  have hs : [(k, e)].find? (fun p => p.1 == k2) = none := by
    simp [beq_iff_eq, h]
  unfold findEntry
  rw [List.find?_append, hs]
  cases acc.find? (fun p => p.1 == k2) <;> simp

/-- One loop iteration leaves entries of other constraint names unchanged. -/
theorem findEntry_conStep_ne (acc : List (Value × ConEntry)) (r : ConRow) (k : Value)
    (h : r.constraint_name ≠ k) :
    findEntry (conStep acc r) k = findEntry acc k := by
  unfold conStep
  simp only [pyIdx_eq, pyGet_conRow_cname, pyGet_conRow_ctype, pyGet_conRow_col,
    pyGet_conRow_fschema, pyGet_conRow_fname, pyGet_conRow_fcol]
  by_cases h1 : findEntry acc r.constraint_name = none
  · rw [if_pos h1]
    by_cases h2 : (r.column_name).truthy = true
    · rw [if_pos h2, findEntry_updateEntry_ne _ _ _ _ (Ne.symm h),
        findEntry_append_ne _ _ _ _ h]
    · rw [if_neg h2, findEntry_append_ne _ _ _ _ h]
  · rw [if_neg h1]
    by_cases h2 : (r.column_name).truthy = true
    · rw [if_pos h2, findEntry_updateEntry_ne _ _ _ _ (Ne.symm h)]
    · rw [if_neg h2]

/-- One loop iteration's effect on the entry of the row's own constraint name:
on first sight the entry is created (with the `references` block derived from
this row) and receives the row's column if truthy; on later sights only the
column list grows and `type` and `references` are untouched. -/
theorem findEntry_conStep_self (acc : List (Value × ConEntry)) (r : ConRow) :
    findEntry (conStep acc r) r.constraint_name =
      some (match findEntry acc r.constraint_name with
            | some e => { e with columns :=
                e.columns ++ (if r.column_name.truthy then [r.column_name] else []) }
            | none => { type := r.constraint_type
                        columns := (if r.column_name.truthy then [r.column_name] else [])
                        references := refOfFirst r }) := by
  unfold conStep
  simp only [pyIdx_eq, pyGet_conRow_cname, pyGet_conRow_ctype, pyGet_conRow_col,
    pyGet_conRow_fschema, pyGet_conRow_fname, pyGet_conRow_fcol]
  by_cases h1 : findEntry acc r.constraint_name = none
  · rw [if_pos h1, h1]
    by_cases h2 : (r.column_name).truthy = true
    · rw [if_pos h2, findEntry_updateEntry_self,
        findEntry_append_right _ _ _ h1]
      simp [refOfFirst, h2]
    · rw [if_neg h2, findEntry_append_right _ _ _ h1]
      simp [refOfFirst, h2]
  · obtain ⟨e, he⟩ := Option.ne_none_iff_exists'.mp h1
    rw [if_neg h1, he]
    by_cases h2 : (r.column_name).truthy = true
    · rw [if_pos h2, findEntry_updateEntry_self, he]
      simp [h2]
    · rw [if_neg h2, he]
      simp [h2]

/-- Folding the whole row stream: the final entry under name `k` has the type
and references of the first row seen for `k` and the concatenation of all
truthy columns of rows for `k`, in row order. -/
theorem findEntry_foldl (rows : List ConRow) : ∀ (acc : List (Value × ConEntry)) (k : Value),
    findEntry (rows.foldl conStep acc) k =
      match findEntry acc k with
      | some e => some { e with columns := e.columns ++ colsFor k rows }
      | none =>
        match rows.find? (fun r => r.constraint_name == k) with
        | some r0 => some { type := r0.constraint_type, columns := colsFor k rows
                            references := refOfFirst r0 }
        | none => none := by
  induction rows with
  | nil =>
    intro acc k
    simp only [List.foldl_nil, colsFor, List.filter_nil, List.filterMap_nil,
      List.find?_nil]
    cases findEntry acc k <;> simp
  | cons r rest ih =>
    intro acc k
    rw [List.foldl_cons, ih (conStep acc r) k]
    by_cases hrk : r.constraint_name = k
    · subst hrk
      rw [findEntry_conStep_self acc r]
      cases hacc : findEntry acc r.constraint_name with
      | some e =>
        cases h2 : (r.column_name).truthy <;>
          simp [colsFor, List.filter_cons, List.filterMap_cons, h2]
      | none =>
        cases h2 : (r.column_name).truthy <;>
          simp [colsFor, List.filter_cons, List.filterMap_cons, h2]
    · rw [findEntry_conStep_ne acc r k hrk]
      have hcols : colsFor k (r :: rest) = colsFor k rest := by
        simp [colsFor, List.filter_cons, beq_iff_eq, hrk]
      have hfind : (r :: rest).find? (fun r2 => r2.constraint_name == k) =
          rest.find? (fun r2 => r2.constraint_name == k) :=
        List.find?_cons_of_neg _ (by simp [beq_iff_eq, hrk])
      rw [hcols, hfind]

/-- Lookup through the final `.items()` projection to descriptors. -/
theorem findDesc_map (l : List (Value × ConEntry)) (k : Value) :
    findDesc (l.map (fun p => ({ name := p.1, type := p.2.type, columns := p.2.columns
                                 references := p.2.references } : ConDesc))) k =
      (l.find? (fun p => p.1 == k)).map
        (fun p => { name := p.1, type := p.2.type, columns := p.2.columns
                    references := p.2.references }) := by
  induction l with
  | nil => rfl
  | cons p l ih =>
    by_cases hp : p.1 = k
    · simp [findDesc, hp]
    · simp only [findDesc, List.map_cons] at ih ⊢
      rw [List.find?_cons_of_neg _ (by simp [beq_iff_eq, hp]),
        List.find?_cons_of_neg _ (by simp [beq_iff_eq, hp])]
      exact ih

/-- The descriptor emitted under constraint name `k`, characterized from the
row stream: present exactly when some row carries that name; its type and
references come from the first such row, its columns are the truthy
`column_name` cells of all such rows in order. -/
theorem findDesc_constraintsOf (rows : List ConRow) (k : Value) :
    findDesc (constraintsOf rows) k =
      match rows.find? (fun r => r.constraint_name == k) with
      | some r0 => some { name := k, type := r0.constraint_type, columns := colsFor k rows
                          references := refOfFirst r0 }
      | none => none := by
  have h := findEntry_foldl rows [] k
  rw [findEntry_nil] at h
  unfold constraintsOf
  rw [findDesc_map]
  cases hf : rows.find? (fun r => r.constraint_name == k) with
  | none =>
    rw [hf] at h
    unfold findEntry at h
    have hq : (rows.foldl conStep []).find? (fun p => p.1 == k) = none := by
      cases hq2 : (rows.foldl conStep []).find? (fun p => p.1 == k) with
      | none => rfl
      | some p => rw [hq2] at h; simp at h
    rw [hq]
    rfl
  | some r0 =>
    rw [hf] at h
    unfold findEntry at h
    cases hq : (rows.foldl conStep []).find? (fun p => p.1 == k) with
    | none => rw [hq] at h; simp at h
    | some p =>
      rw [hq] at h
      have h2 : p.2 = { type := r0.constraint_type, columns := colsFor k rows
                        references := refOfFirst r0 } := by
        simpa using h
      have hk : p.1 = k := by
        have := List.find?_some hq
        simpa [beq_iff_eq] using this
      simp [hk, h2]

/-- When every row of a constraint carries a truthy column, the descriptor's
column count equals the row count for that constraint. -/
theorem colsFor_length (rows : List ConRow) (k : Value)
    (h : ∀ r ∈ rows, r.constraint_name = k → r.column_name.truthy = true) :
    (colsFor k rows).length = (rows.filter (fun r => r.constraint_name == k)).length := by
  induction rows with
  | nil => rfl
  | cons r rest ih =>
    have ih2 := ih (fun r2 hr2 => h r2 (List.mem_cons_of_mem _ hr2))
    by_cases hrk : r.constraint_name = k
    · have ht := h r (List.mem_cons_self _ _) hrk
      simp only [colsFor, List.filter_cons] at ih2 ⊢
      rw [if_pos (by simp [beq_iff_eq, hrk])]
      simp [List.filterMap_cons, ht, ih2]
    · simp only [colsFor, List.filter_cons] at ih2 ⊢
      rw [if_neg (by simp [beq_iff_eq, hrk])]
      exact ih2

/-- Membership in the accumulated column list of constraint `k`. -/
theorem mem_colsFor (rows : List ConRow) (k : Value) (x : Value) :
    x ∈ colsFor k rows ↔
      ∃ r, r ∈ rows ∧ r.constraint_name = k ∧ r.column_name.truthy = true ∧
        r.column_name = x := by
  simp only [colsFor, List.mem_filterMap, List.mem_filter, beq_iff_eq]
  constructor
  · rintro ⟨r, ⟨hr, hk⟩, hx⟩
    by_cases ht : r.column_name.truthy = true
    · rw [if_pos ht] at hx
      exact ⟨r, hr, hk, ht, by simpa using hx⟩
    · rw [if_neg ht] at hx
      exact absurd hx (by simp)
  · rintro ⟨r, hr, hk, ht, hx⟩
    exact ⟨r, ⟨hr, hk⟩, by rw [if_pos ht, hx]⟩

/-- Claim C4: for a foreign-key constraint whose result rows each carry a
referencing column, the emitted descriptor has exactly one column per row of
that constraint (length N), and its reference block is derived solely from the
first-seen row — set at most once, at entry creation, and never overwritten by
later rows. -/
theorem c4_fk_columns_and_single_reference (rows : List ConRow) (k : Value) (r0 : ConRow)
    (hfirst : rows.find? (fun r => r.constraint_name == k) = some r0)
    (hfk : ∀ r ∈ rows, r.constraint_name = k →
      r.constraint_type = Value.str "FOREIGN KEY")
    (hcols : ∀ r ∈ rows, r.constraint_name = k → r.column_name.truthy = true) :
    ∃ d, findDesc (constraintsOf rows) k = some d ∧
      d.columns.length = (rows.filter (fun r => r.constraint_name == k)).length ∧
      d.references =
        (if (r0.constraint_type == Value.str "FOREIGN KEY") &&
            r0.foreign_table_name.truthy then
          some { schema := r0.foreign_table_schema, table := r0.foreign_table_name
                 column := r0.foreign_column_name }
        else none) := by
  have hd := findDesc_constraintsOf rows k
  simp only [hfirst] at hd
  exact ⟨_, hd, colsFor_length rows k hcols, rfl⟩

/-- Claim C4 witness: a two-column composite foreign key whose second row
carries a different referenced target; the reference block still comes from
the first row. -/
theorem c4_witness :
    ∃ d, findDesc (constraintsOf [c4row1, c4row2]) (Value.str "fk") = some d ∧
      d.columns.length =
        ([c4row1, c4row2].filter
          (fun r => r.constraint_name == Value.str "fk")).length ∧
      d.references =
        (if (c4row1.constraint_type == Value.str "FOREIGN KEY") &&
            c4row1.foreign_table_name.truthy then
          some { schema := c4row1.foreign_table_schema, table := c4row1.foreign_table_name
                 column := c4row1.foreign_column_name }
        else none) :=
  c4_fk_columns_and_single_reference [c4row1, c4row2] (Value.str "fk") c4row1
    (by decide) (by decide) (by decide)

/-- Claim C5 counterexample: a CHECK-constraint row joins to no key column, so
its `column_name` cell is NULL; the descriptor for a name seen in one row is
emitted with zero columns, refuting the claim that it is always non-empty. -/
theorem c5_counterexample :
    ∃ d, findDesc (constraintsOf [c5row]) (Value.str "chk") = some d ∧
      d.columns = [] :=
  ⟨{ name := Value.str "chk", type := Value.str "CHECK", columns := []
     references := none }, by decide, rfl⟩

/-- Claim C5 (amended): a descriptor is emitted for every constraint name seen
in at least one row, and each row whose `column_name` cell is truthy
contributes exactly one column, in first-seen order; rows whose cell is NULL
contribute none, so the columns list is non-empty exactly when some row for
that name carries a truthy column (not unconditionally). -/
theorem c5_amended_columns_per_row (rows : List ConRow) (k : Value) (r0 : ConRow)
    (hfirst : rows.find? (fun r => r.constraint_name == k) = some r0) :
    ∃ d, findDesc (constraintsOf rows) k = some d ∧ d.columns = colsFor k rows ∧
      (d.columns ≠ [] ↔
        ∃ r, r ∈ rows ∧ r.constraint_name = k ∧ r.column_name.truthy = true) := by
  have hd := findDesc_constraintsOf rows k
  simp only [hfirst] at hd
  refine ⟨_, hd, rfl, ?_⟩
  rw [Ne, List.eq_nil_iff_forall_not_mem]
  push_neg
  constructor
  · rintro ⟨x, hx⟩
    obtain ⟨r, hr, hk2, ht, _⟩ := (mem_colsFor rows k x).mp hx
    exact ⟨r, hr, hk2, ht⟩
  · rintro ⟨r, hr, hk2, ht⟩
    exact ⟨r.column_name, (mem_colsFor rows k r.column_name).mpr ⟨r, hr, hk2, ht, rfl⟩⟩

/-- Claim C5 witness: the amended statement applied to the single CHECK row. -/
theorem c5_witness :
    ∃ d, findDesc (constraintsOf [c5row]) (Value.str "chk") = some d ∧
      d.columns = colsFor (Value.str "chk") [c5row] ∧
      (d.columns ≠ [] ↔
        ∃ r, r ∈ [c5row] ∧ r.constraint_name = Value.str "chk" ∧
          r.column_name.truthy = true) :=
  c5_amended_columns_per_row [c5row] (Value.str "chk") c5row (by decide)

/-- Claim C6 (amended): the `max_length` / `precision` / `scale` keys are
present if and only if the corresponding catalog cell is truthy — that is,
non-null AND non-zero — and when present they carry the cell verbatim; a
non-null zero is omitted exactly like a NULL, and no null placeholder is ever
stored. -/
theorem c6_amended_truthiness_gates_details (r : ColRow) :
    (colInfoOfRow r).max_length =
      (if r.character_maximum_length.truthy then some r.character_maximum_length
       else none) ∧
    (colInfoOfRow r).precision =
      (if r.numeric_precision.truthy then some r.numeric_precision else none) ∧
    (colInfoOfRow r).scale =
      (if r.numeric_scale.truthy then some r.numeric_scale else none) := by
  refine ⟨?_, ?_, ?_⟩ <;> simp [colInfoOfRow]

/-- Claim C6 counterexample: a `numeric(10,0)` column: the catalog reports the
non-null scale `0`, yet the emitted descriptor omits the `scale` key because
`0` is falsy in the guarding truthiness test, refuting presence-iff-non-null. -/
theorem c6_counterexample :
    c6row.numeric_scale ≠ Value.null ∧ (colInfoOfRow c6row).scale = none := by
  decide

/-- Claim C7, code evaluated at the failing input: for a column whose catalog
description is absent, the selected `column_comment` cell is NULL and the
emitted comment is that NULL rather than the empty string — `dict.get(key, d)`
applies its default only when the key is missing, and the column is always
selected, so the intended empty-string default is unreachable. -/
theorem c7_comment_null_not_empty :
    c7row.column_comment = Value.null ∧
    (colInfoOfRow c7row).comment = Value.null ∧
    (colInfoOfRow c7row).comment ≠ Value.str "" := by
  decide

@[simp] theorem pyGet_depRow_schema (r : DepRow) (d : Value) :
    pyGet r.cells "source_schema" d = r.source_schema := rfl

@[simp] theorem pyGet_depRow_table (r : DepRow) (d : Value) :
    pyGet r.cells "source_table" d = r.source_table := rfl

@[simp] theorem pyGet_depRow_type (r : DepRow) (d : Value) :
    pyGet r.cells "source_type" d = r.source_type := rfl

/-- The lexicographic comparison is total. -/
theorem charListLe_total : ∀ as bs, charListLe as bs = true ∨ charListLe bs as = true
  | [], _ => Or.inl rfl
  | _ :: _, [] => Or.inr rfl
  | a :: as, b :: bs => by
    by_cases h1 : a < b
    · left; simp [charListLe, h1]
    · by_cases h2 : b < a
      · right; simp [charListLe, h2]
      · rcases charListLe_total as bs with h | h
        · left; simp [charListLe, h1, h2, h]
        · right; simp [charListLe, h1, h2, h]

/-- The lexicographic comparison is transitive. -/
theorem charListLe_trans : ∀ as bs cs, charListLe as bs = true →
    charListLe bs cs = true → charListLe as cs = true
  | [], _, _, _, _ => rfl
  | _ :: _, [], _, h1, _ => by simp [charListLe] at h1
  | _ :: _, _ :: _, [], _, h2 => by simp [charListLe] at h2
  | a :: as, b :: bs, c :: cs, h1, h2 => by
    simp only [charListLe] at h1 h2 ⊢
    by_cases hab : a < b
    · by_cases hbc : b < c
      · simp [lt_trans hab hbc]
      · by_cases hcb : c < b
        · simp [hbc, hcb] at h2
        · have hbceq : b = c := le_antisymm (not_lt.1 hcb) (not_lt.1 hbc)
          subst hbceq
          simp [hab]
    · by_cases hba : b < a
      · simp [hab, hba] at h1
      · have habeq : a = b := le_antisymm (not_lt.1 hba) (not_lt.1 hab)
        subst habeq
        by_cases hac : a < c
        · simp [hac]
        · by_cases hca : c < a
          · simp [hac, hca] at h2
          · simp [hab, hac, hca] at h1 h2 ⊢
            exact charListLe_trans as bs cs h1 h2

/-- Claim C8 (amended): the report's schema list contains exactly the catalog
schemas whose name does not match the SQL pattern `pg_%` — in `LIKE`, `_`
matches any single character, so any name of length at least 3 starting `pg`
is excluded, not only names with the literal prefix `pg_` — and is not
`information_schema`; the list is ordered by schema name. -/
theorem c8_amended_schema_filter_and_order :
    ∀ (catalog : List CatalogSchema) (db : TablesDb) (n : String)
      (rows : List TableRow),
      db.schemaQ = .ok (schemaQuerySem catalog) → db.tableQ = .ok rows →
      ∃ rep, getTablesImpl db n = Resp.ok rep ∧
        rep.schemas = schemaQuerySem catalog ∧
        (∀ c ∈ catalog, likePgPattern c.name = false →
          c.name ≠ "information_schema" → schemaRowOf c ∈ rep.schemas) ∧
        (∀ srow ∈ rep.schemas, ∃ c, c ∈ catalog ∧ srow = schemaRowOf c ∧
          likePgPattern c.name = false ∧ c.name ≠ "information_schema") ∧
        List.Pairwise (fun a b =>
          charListLe a.schema_name.strOrEmpty.data b.schema_name.strOrEmpty.data = true)
          rep.schemas := by
  intro catalog db n rows h1 h2
  have hrep : ∃ rep, getTablesImpl db n = Resp.ok rep ∧
      rep.schemas = schemaQuerySem catalog := by
    cases rows with
    | nil => exact ⟨_, getTablesImpl_ok_empty db n _ h1 h2, rfl⟩
    | cons a l => exact ⟨_, getTablesImpl_ok_nonempty db n _ _ h1 h2 (by simp), rfl⟩
  obtain ⟨rep, hok, hsch⟩ := hrep
  refine ⟨rep, hok, hsch, ?_, ?_, ?_⟩
  · intro c hc hlike hinfo
    rw [hsch]
    unfold schemaQuerySem
    apply List.mem_map_of_mem
    rw [List.mem_insertionSort]
    exact List.mem_filter.mpr ⟨hc, by simp [hlike, hinfo]⟩
  · intro srow hs
    rw [hsch] at hs
    unfold schemaQuerySem at hs
    obtain ⟨c, hcmem, hceq⟩ := List.mem_map.mp hs
    rw [List.mem_insertionSort] at hcmem
    obtain ⟨hcat, hcond⟩ := List.mem_filter.mp hcmem
    simp only [Bool.and_eq_true, Bool.not_eq_true', bne_iff_ne, Ne] at hcond
    exact ⟨c, hcat, hceq.symm, hcond.1, hcond.2⟩
  · rw [hsch]
    unfold schemaQuerySem
    haveI : IsTotal CatalogSchema schemaNameLe := ⟨fun a b => charListLe_total _ _⟩
    haveI : IsTrans CatalogSchema schemaNameLe :=
      ⟨fun a b c h1 h2 => charListLe_trans _ _ _ h1 h2⟩
    have hsorted := List.sorted_insertionSort schemaNameLe
      (catalog.filter
        (fun c => !(likePgPattern c.name) && c.name != "information_schema"))
    exact List.Pairwise.map _ (fun a b hab => by
      simpa [schemaRowOf, Value.strOrEmpty, schemaNameLe] using hab) hsorted

/-- Claim C8 counterexample: a schema named `pgx` does not begin with the
literal prefix `pg_` and is not `information_schema`, yet the enumeration
excludes it, because the SQL pattern `pg_%` treats `_` as a single-character
wildcard; the resulting report has an empty schema list. -/
theorem c8_counterexample :
    ∃ rep, getTablesImpl c8db "d" = Resp.ok rep ∧ rep.schemas = [] ∧
      beginsWithPgUnderscore "pgx" = false ∧ "pgx" ≠ "information_schema" :=
  ⟨{ database := "d", schemas := [], tables := [], total_tables := none },
    by decide, rfl, by decide, by decide⟩

/-- Claim C8 witness: an out-of-order three-schema catalog containing
`pg_toast`; the report keeps exactly the two user schemas, sorted by name. -/
theorem c8_witness :
    ∃ rep, getTablesImpl c8wdb "d" = Resp.ok rep ∧
      rep.schemas = schemaQuerySem c8wcat ∧
      (∀ c ∈ c8wcat, likePgPattern c.name = false →
        c.name ≠ "information_schema" → schemaRowOf c ∈ rep.schemas) ∧
      (∀ srow ∈ rep.schemas, ∃ c, c ∈ c8wcat ∧ srow = schemaRowOf c ∧
        likePgPattern c.name = false ∧ c.name ≠ "information_schema") ∧
      List.Pairwise (fun a b =>
        charListLe a.schema_name.strOrEmpty.data b.schema_name.strOrEmpty.data = true)
        rep.schemas :=
  c8_amended_schema_filter_and_order c8wcat c8wdb "d" [] rfl rfl

/-- Claim C10: if every dependency row returned for a view satisfies the
query's `relkind IN ('r', 'v', 'm')` filter, then every dependency descriptor
in every view record of a successful report has kind `table`, `view` or
`materialized view`; the `unknown` fallback of the kind mapping is never
taken. -/
theorem c10_dependency_kinds (db : ViewsDb) (n : String) (rep : ViewsReport)
    (hdep : ∀ s t rows, db.depQ s t = Except.ok rows → ∀ r ∈ rows,
      r.source_type = Value.str "r" ∨ r.source_type = Value.str "v" ∨
      r.source_type = Value.str "m")
    (hok : getViewsImpl db n = Resp.ok rep) :
    ∀ v ∈ rep.views, ∀ d ∈ v.dependencies,
      d.type = "table" ∨ d.type = "view" ∨ d.type = "materialized view" := by
  intro v hv d hd
  have hv2 : ∃ vrow, processView db vrow = some v := by
    cases hs : db.schemaQ with
    | error e =>
      rw [getViewsImpl_schema_error db n e hs] at hok
      exact absurd hok (by simp)
    | ok ss =>
      cases ht : db.viewQ with
      | error e =>
        rw [getViewsImpl_view_error db n ss e hs ht] at hok
        exact absurd hok (by simp)
      | ok rows =>
        cases rows with
        | nil =>
          rw [getViewsImpl_ok_empty db n ss hs ht] at hok
          simp only [Resp.ok.injEq] at hok
          subst hok
          exact absurd hv (by simp)
        | cons a l =>
          rw [getViewsImpl_ok_nonempty db n ss (a :: l) hs ht (by simp)] at hok
          simp only [Resp.ok.injEq] at hok
          subst hok
          obtain ⟨vrow, _, hsome⟩ := List.mem_filterMap.mp hv
          exact ⟨vrow, hsome⟩
  obtain ⟨vrow, hsome⟩ := hv2
  unfold processView at hsome
  simp only [pyIdx_eq, pyGet_viewRow_schema, pyGet_viewRow_name] at hsome
  cases hc : db.colQ vrow.table_schema vrow.table_name with
  | error e => rw [hc] at hsome; exact absurd hsome (by simp)
  | ok cr =>
    rw [hc] at hsome
    cases hdq : db.depQ vrow.table_schema vrow.table_name with
    | error e => rw [hdq] at hsome; exact absurd hsome (by simp)
    | ok dr =>
      rw [hdq] at hsome
      simp only [Option.some.injEq] at hsome
      have hdeps : v.dependencies = dependenciesOf dr := by rw [← hsome]
      rw [hdeps] at hd
      unfold dependenciesOf at hd
      obtain ⟨r, hr, hdr⟩ := List.mem_map.mp hd
      have hkind := hdep _ _ dr hdq r hr
      rcases hkind with h | h | h <;>
        · rw [← hdr]
          simp [depTypeMapGet, h]

/-- Claim C10 witness: a view depending on one ordinary table (`relkind 'r'`);
its dependency descriptor's kind is `table`. -/
theorem c10_witness :
    c10dep.type = "table" ∨ c10dep.type = "view" ∨
      c10dep.type = "materialized view" :=
  c10_dependency_kinds c10db "d" c10rep
    (by
      intro s t rows h r hr
      simp only [c10db] at h
      cases h
      simp only [List.mem_singleton] at hr
      subst hr
      left
      rfl)
    (by decide)
    c10view (by decide) c10dep (by decide)

end PostgresMcp
